import Mathlib

/-!
Verification of the affinity shim (src/affinity/affinity.c) against its
natural-language specification.

The C file wraps three OS facilities: `sched_getaffinity`,
`sched_setaffinity` and `sysconf(_SC_NPROCESSORS_ONLN)`.  The shallow
embedding below models:

* a native `cpu_set_t` as a natural number viewed as a bit set
  (`CPU_ZERO` = 0, `CPU_SET i s` = `s ||| 2 ^ i`,
  `CPU_ISSET i s` = `Nat.testBit s i`);
* the per-call OS responses as explicit parameters (the result of the
  `sched_getaffinity` query, the return value of `sched_setaffinity`, the
  return value of `sysconf`);
* the uninitialized C local `uint64_t res;` of `get_proc_affinity` as an
  explicit `junk` parameter holding whatever indeterminate value the
  storage happens to contain when the function starts;
* the C expression `1 << i`, whose left operand has type `int`
  (32 bits on the LP64 targets this code is compiled for), as an
  `Option Nat`: `none` models undefined behavior (signed overflow at
  `i = 31`, shift count at least the width for `i ≥ 32`), which then
  propagates through any computation that evaluates the expression.

The ascending C `for` loops are embedded as structural recursion on the
(exclusive) upper bound: `loop (n+1)` performs `loop n` and then the body
at index `n`, which processes indices `0, 1, ..., n` in the same order as
the source loops.
-/

namespace Affinity

/-- Bit width of the C `int` type on the target platform (LP64). -/
def intBits : Nat := 32

/-- Embedding of the C expression `1 << i` as it appears in both
bit-conversion loops of src/affinity/affinity.c (lines 27 and 47).
The literal `1` has type `int`, so the shift is performed at 32 bits:
the value is `2 ^ i` for `i ≤ 30`; for `i = 31` the shift overflows the
signed 32-bit range and for `i ≥ 32` the shift count reaches the operand
width, both of which are undefined behavior in C, modelled as `none`. -/
def c_shl_one (i : Nat) : Option Nat :=
  if i < intBits - 1 then some (2 ^ i) else none

/-- Embedding of the `for` loop of `get_proc_affinity`
(src/affinity/affinity.c lines 25-29): starting from the indeterminate
initial value `junk` of the uninitialized local `res`, for each index
`i = 0, ..., n - 1`, if `CPU_ISSET(i, &cpu_set)` then
`res |= 1 << i`.  The shift is evaluated only when the membership test
succeeds, and undefined behavior in it makes the whole run undefined. -/
def get_affinity_loop (cpuSet junk : Nat) : Nat → Option Nat
  | 0 => some junk
  | n + 1 =>
    match get_affinity_loop cpuSet junk n with
    | none => none
    | some res =>
      if Nat.testBit cpuSet n then
        match c_shl_one n with
        | none => none
        | some v => some (res ||| v)
      else
        some res

/-- Embedding of `get_proc_affinity` (src/affinity/affinity.c lines
16-32).  `osQuery` is the outcome of the `sched_getaffinity` call:
`none` when it fails (returns -1), `some cpuSet` when it succeeds and
fills the native CPU-set; `junk` is the indeterminate initial value of
the uninitialized accumulator `res`; `nproc` is the value of
`get_proc_count()` used as the loop bound.  On query failure the
function returns 0 before ever touching `res`. -/
def get_proc_affinity (osQuery : Option Nat) (junk nproc : Nat) : Option Nat :=
  match osQuery with
  | none => some 0
  | some cpuSet => get_affinity_loop cpuSet junk nproc

/-- Embedding of the CPU-set construction in `set_proc_affinity`
(src/affinity/affinity.c lines 43-50): `CPU_ZERO(&cpu_set)` and then,
for each index `i = 0, ..., n - 1`, if `(cpus & (1 << i)) != 0` then
`CPU_SET(i, &cpu_set)`.  The shift is evaluated unconditionally in the
loop condition, so any index whose shift is undefined makes the whole
run undefined. -/
def build_cpu_set (cpus : Nat) : Nat → Option Nat
  | 0 => some 0
  | n + 1 =>
    match build_cpu_set cpus n with
    | none => none
    | some s =>
      match c_shl_one n with
      | none => none
      | some v => if cpus &&& v ≠ 0 then some (s ||| 2 ^ n) else some s

/-- Embedding of `set_proc_affinity` (src/affinity/affinity.c lines
41-53), return value only: the function returns the result of
`sched_setaffinity` verbatim (`osResult`, which the OS contract
constrains to 0 on success and -1 on failure).  The value is produced
only when building the CPU-set did not run into undefined behavior. -/
def set_proc_affinity (cpus nproc : Nat) (osResult : Int) : Option Int :=
  (build_cpu_set cpus nproc).map (fun _ => osResult)

/-- Embedding of the effect of `set_proc_affinity` on the OS-level
affinity state of the target process: when `sched_setaffinity` succeeds
(`osResult = 0`) the affinity becomes the CPU-set built from the mask;
when it fails the previous affinity `old` is left unchanged (OS
semantics, spec section 4.1). -/
def set_affinity_state (cpus nproc : Nat) (osResult : Int) (old : Nat) : Option Nat :=
  (build_cpu_set cpus nproc).map (fun s => if osResult = 0 then s else old)

/-- Embedding of `get_proc_count` (src/affinity/affinity.c lines 35-37):
`sysconf(_SC_NPROCESSORS_ONLN)` returns a C `long` (`sysconfResult`),
which the `return` statement converts to the declared `uint64_t` return
type, i.e. reduces modulo `2 ^ 64`. -/
def get_proc_count (sysconfResult : Int) : Nat :=
  (sysconfResult % (2 : Int) ^ 64).toNat

/-- A defined value of the C shift `1 << i` is `2 ^ i`, and definedness
forces `i < 31`. -/
theorem c_shl_one_eq_some {i v : Nat} (h : c_shl_one i = some v) :
    v = 2 ^ i ∧ i < 31 := by
  by_cases hi : i < intBits - 1
  · rw [c_shl_one, if_pos hi] at h
    exact ⟨(Option.some.inj h).symm, by unfold intBits at hi; omega⟩
  · rw [c_shl_one, if_neg hi] at h
    cases h

/-- The C shift `1 << i` is defined (and equal to `2 ^ i`) for `i < 31`. -/
theorem c_shl_one_of_lt {i : Nat} (h : i < 31) : c_shl_one i = some (2 ^ i) := by
  rw [c_shl_one, if_pos]
  unfold intBits
  omega

/-- The C shift `1 << i` is undefined behavior for `i ≥ 31`. -/
theorem c_shl_one_of_ge {i : Nat} (h : 31 ≤ i) : c_shl_one i = none := by
  rw [c_shl_one, if_neg]
  unfold intBits
  omega

/-- The loop condition `(cpus & (1 << i)) != 0` of `set_proc_affinity`
tests exactly bit `i` of the mask (when the shift is defined). -/
theorem and_two_pow_ne_zero_iff (m i : Nat) :
    (m &&& 2 ^ i ≠ 0) ↔ m.testBit i = true := by
  rw [Nat.and_two_pow]
  cases h : m.testBit i <;> simp [h, Nat.pow_eq_zero]

/-- With a loop bound above 31, `set_proc_affinity`'s CPU-set
construction runs into the undefined shift. -/
theorem build_cpu_set_none_of_gt (cpus : Nat) {n : Nat} (h : 31 < n) :
    build_cpu_set cpus n = none := by
  obtain ⟨m, rfl⟩ : ∃ m, n = m + 1 := ⟨n - 1, by omega⟩
  have hm : c_shl_one m = none := c_shl_one_of_ge (by omega)
  cases hb : build_cpu_set cpus m <;> simp [build_cpu_set, hb, hm]

/-- A defined run of the CPU-set construction forces the loop bound to
be at most 31. -/
theorem build_cpu_set_le_of_some {cpus n s : Nat}
    (h : build_cpu_set cpus n = some s) : n ≤ 31 := by
  by_contra hn
  rw [build_cpu_set_none_of_gt cpus (by omega)] at h
  cases h

/-- Characterization of a defined run of `set_proc_affinity`'s CPU-set
construction: starting from the empty set, exactly the mask bits at
indices below the loop bound end up in the set. -/
theorem build_cpu_set_testBit (cpus : Nat) :
    ∀ n s, build_cpu_set cpus n = some s →
      ∀ j, s.testBit j = (decide (j < n) && cpus.testBit j) := by
  intro n
  induction n with
  | zero =>
    intro s h j
    simp only [build_cpu_set, Option.some.injEq] at h
    subst h
    simp
  | succ k ih =>
    intro s h j
    cases hb : build_cpu_set cpus k with
    | none => simp [build_cpu_set, hb] at h
    | some t =>
      cases hc : c_shl_one k with
      | none => simp [build_cpu_set, hb, hc] at h
      | some v =>
        obtain ⟨rfl, hk31⟩ := c_shl_one_eq_some hc
        by_cases hbit : cpus.testBit k
        · have hcond : cpus &&& 2 ^ k ≠ 0 := (and_two_pow_ne_zero_iff cpus k).2 hbit
          simp only [build_cpu_set, hb, hc, if_pos hcond, Option.some.injEq] at h
          subst h
          rw [Nat.testBit_or, ih t hb j, Nat.testBit_two_pow]
          by_cases hj : j = k
          · subst hj
            simp [hbit]
          · have h1 : decide (k = j) = false := by simp [Ne.symm hj]
            have h2 : decide (j < k + 1) = decide (j < k) :=
              decide_eq_decide.mpr (by omega)
            rw [h1, h2]
            simp
        · have hcond : ¬(cpus &&& 2 ^ k ≠ 0) := fun hne =>
            hbit ((and_two_pow_ne_zero_iff cpus k).1 hne)
          simp only [build_cpu_set, hb, hc, if_neg hcond, Option.some.injEq] at h
          subst h
          rw [ih t hb j]
          by_cases hj : j = k
          · subst hj
            simp [Bool.eq_false_iff.2 hbit]
          · have h2 : decide (j < k + 1) = decide (j < k) :=
              decide_eq_decide.mpr (by omega)
            rw [h2]

/-- Characterization of a defined run of `get_proc_affinity`'s bit
conversion loop: the result holds a bit wherever the indeterminate
initial accumulator value held one, plus the bits of CPU-set members
below the loop bound. -/
theorem get_affinity_loop_testBit (cpuSet junk : Nat) :
    ∀ n m, get_affinity_loop cpuSet junk n = some m →
      ∀ j, m.testBit j =
        (junk.testBit j || (decide (j < n) && cpuSet.testBit j)) := by
  intro n
  induction n with
  | zero =>
    intro m h j
    simp only [get_affinity_loop, Option.some.injEq] at h
    subst h
    simp
  | succ k ih =>
    intro m h j
    cases hb : get_affinity_loop cpuSet junk k with
    | none => simp [get_affinity_loop, hb] at h
    | some res =>
      by_cases hbit : cpuSet.testBit k
      · cases hc : c_shl_one k with
        | none => simp [get_affinity_loop, hb, hbit, hc] at h
        | some v =>
          obtain ⟨rfl, hk31⟩ := c_shl_one_eq_some hc
          simp only [get_affinity_loop, hb, hbit, if_pos, hc,
            Option.some.injEq] at h
          subst h
          rw [Nat.testBit_or, ih res hb j, Nat.testBit_two_pow]
          by_cases hj : j = k
          · subst hj
            simp [hbit]
          · have h1 : decide (k = j) = false := by simp [Ne.symm hj]
            have h2 : decide (j < k + 1) = decide (j < k) :=
              decide_eq_decide.mpr (by omega)
            rw [h1, h2]
            simp [Bool.or_assoc]
      · simp [get_affinity_loop, hb, hbit] at h
        subst h
        rw [ih res hb j]
        by_cases hj : j = k
        · subst hj
          simp [Bool.eq_false_iff.2 hbit]
        · have h2 : decide (j < k + 1) = decide (j < k) :=
            decide_eq_decide.mpr (by omega)
          rw [h2]

/-- `get_proc_affinity`'s bit conversion loop terminates without
undefined behavior whenever the loop bound is at most 31. -/
theorem get_affinity_loop_isSome (cpuSet junk : Nat) :
    ∀ n, n ≤ 31 → ∃ m, get_affinity_loop cpuSet junk n = some m := by
  intro n
  induction n with
  | zero => exact fun _ => ⟨junk, rfl⟩
  | succ k ih =>
    intro hk
    obtain ⟨res, hres⟩ := ih (by omega)
    by_cases hbit : cpuSet.testBit k
    · have hc : c_shl_one k = some (2 ^ k) := c_shl_one_of_lt (by omega)
      exact ⟨res ||| 2 ^ k, by simp [get_affinity_loop, hres, hbit, hc]⟩
    · exact ⟨res, by simp [get_affinity_loop, hres, hbit]⟩

/-- Two masks that agree on every bit below the loop bound drive
`set_proc_affinity`'s CPU-set construction to the same outcome. -/
theorem build_cpu_set_congr (m1 m2 : Nat) :
    ∀ n, (∀ i, i < n → m1.testBit i = m2.testBit i) →
      build_cpu_set m1 n = build_cpu_set m2 n := by
  intro n
  induction n with
  | zero => exact fun _ => rfl
  | succ k ih =>
    intro h
    have hrec : build_cpu_set m1 k = build_cpu_set m2 k :=
      ih (fun i hi => h i (by omega))
    have hbit : m1.testBit k = m2.testBit k := h k (by omega)
    cases hb : build_cpu_set m2 k with
    | none => simp [build_cpu_set, hrec, hb]
    | some t =>
      cases hc : c_shl_one k with
      | none => simp [build_cpu_set, hrec, hb, hc]
      | some v =>
        obtain ⟨rfl, hk31⟩ := c_shl_one_eq_some hc
        by_cases h2 : m2.testBit k
        · have e1 : m1 &&& 2 ^ k ≠ 0 :=
            (and_two_pow_ne_zero_iff m1 k).2 (hbit.trans h2)
          have e2 : m2 &&& 2 ^ k ≠ 0 := (and_two_pow_ne_zero_iff m2 k).2 h2
          simp [build_cpu_set, hrec, hb, hc, if_pos e1, if_pos e2]
        · have e1 : ¬(m1 &&& 2 ^ k ≠ 0) := fun hne =>
            h2 (hbit ▸ (and_two_pow_ne_zero_iff m1 k).1 hne)
          have e2 : ¬(m2 &&& 2 ^ k ≠ 0) := fun hne =>
            h2 ((and_two_pow_ne_zero_iff m2 k).1 hne)
          simp [build_cpu_set, hrec, hb, hc, if_neg e1, if_neg e2]

/-- Claim C1 (failing input): the claim that a successful
`get_proc_affinity` returns a mask whose bit `i` reflects exactly
CPU-set membership fails on the code, because the accumulator `res`
(line 24) is never initialized.  With an OS-reported empty CPU-set, one
online processor, and leftover accumulator value 1, the function returns
mask 1 even though core 0 is not a member of the reported set. -/
theorem get_proc_affinity_leaks_uninitialized_bits :
    get_proc_affinity (some 0) 1 1 = some 1 ∧
    Nat.testBit 1 0 = true ∧ Nat.testBit 0 0 = false := by
  decide

/-- Claim C2: the accumulator that `get_proc_affinity` uses to build the
returned mask is not initialized before bits are OR-ed into it; there is
an indeterminate initial accumulator value (`junk = 1`) for which the
returned mask contains a bit with no corresponding CPU-set member, and
the result is not a function of the OS-reported CPU-set alone. -/
theorem get_affinity_accumulator_not_zeroed :
    (∃ junk cpuSet nproc m,
        get_proc_affinity (some cpuSet) junk nproc = some m ∧
        ∃ i, m.testBit i = true ∧ cpuSet.testBit i = false) ∧
    (∃ junk1 junk2 cpuSet nproc,
        get_proc_affinity (some cpuSet) junk1 nproc ≠
          get_proc_affinity (some cpuSet) junk2 nproc) :=
  ⟨⟨1, 0, 1, 1, by decide, 0, by decide, by decide⟩,
   ⟨1, 0, 0, 1, by decide⟩⟩

/-- Claim C3 (failing input): the shift in the bit-conversion loops is
`1 << i` on a 32-bit `int`, not on the 64-bit mask type, so it produces
`2 ^ i` only for `i ≤ 30`; at `i = 31` it is already undefined
(signed overflow), contradicting the claim that bit `i` denotes logical
CPU `i` for every `i < 64` below the processor count.  With 32 online
processors both conversion loops run into the undefined shift. -/
theorem c_shl_one_not_two_pow_beyond_30 :
    c_shl_one 30 = some (2 ^ 30) ∧
    c_shl_one 31 = none ∧
    get_affinity_loop (2 ^ 31) 0 32 = none ∧
    build_cpu_set (2 ^ 31) 32 = none := by
  decide

/-- Claim C4: round-trip fidelity.  If `set_proc_affinity` succeeds
(the OS call returns status 0, so the process's affinity becomes the
built CPU-set) and bit `i` of the mask is set for some `i` below the
processor count, then a subsequent `get_proc_affinity` on the resulting
OS state returns a mask with bit `i` set — for every indeterminate
initial accumulator value, since OR-ing can only add bits. -/
theorem set_get_round_trip (cpus nproc i junk old s : Nat)
    (hset : set_affinity_state cpus nproc 0 old = some s)
    (hi : i < nproc) (hbit : cpus.testBit i = true) :
    ∃ m, get_proc_affinity (some s) junk nproc = some m ∧
      m.testBit i = true := by
  have hbuild : build_cpu_set cpus nproc = some s := by
    unfold set_affinity_state at hset
    cases hb : build_cpu_set cpus nproc with
    | none => rw [hb] at hset; cases hset
    | some t =>
      rw [hb] at hset
      simp at hset
      rw [hset]
  have hle : nproc ≤ 31 := build_cpu_set_le_of_some hbuild
  have hsbit : s.testBit i = true := by
    rw [build_cpu_set_testBit cpus nproc s hbuild i]
    simp [hi, hbit]
  obtain ⟨m, hm⟩ := get_affinity_loop_isSome s junk nproc hle
  refine ⟨m, hm, ?_⟩
  rw [get_affinity_loop_testBit s junk nproc m hm i]
  simp [hsbit, hi]

/-- Witness for claim C4 at the spec's own scenario: processor count 4,
mask 0b0101, successful set; the subsequent get reports bit 0 set. -/
theorem set_get_round_trip_witness :
    ∃ m, get_proc_affinity (some 5) 0 4 = some m ∧ m.testBit 0 = true :=
  set_get_round_trip 5 4 0 0 0 5 (by decide) (by decide) (by decide)

/-- Claim C5: when the `sched_getaffinity` query fails,
`get_proc_affinity` returns exactly the all-zero bitmask, whatever the
leftover accumulator value and processor count; and a successful query
can legitimately return the same value 0, so the two outcomes are
indistinguishable from the return value alone. -/
theorem get_failure_returns_zero :
    (∀ junk nproc, get_proc_affinity none junk nproc = some 0) ∧
    (∃ cpuSet junk nproc,
        get_proc_affinity (some cpuSet) junk nproc = some 0) :=
  ⟨fun _ _ => rfl, ⟨0, 0, 1, by decide⟩⟩

/-- Claim C6: `set_proc_affinity` returns the outcome of the underlying
`sched_setaffinity` call verbatim: status 0 exactly when the OS call
succeeds (returns 0) and the OS call's nonzero result, uninterpreted,
exactly when it fails. -/
theorem set_status_verbatim (cpus nproc : Nat) (osResult st : Int)
    (h : set_proc_affinity cpus nproc osResult = some st) :
    st = osResult ∧ (osResult = 0 → st = 0) ∧ (osResult ≠ 0 → st ≠ 0) := by
  unfold set_proc_affinity at h
  cases hb : build_cpu_set cpus nproc with
  | none => rw [hb] at h; cases h
  | some t =>
    rw [hb] at h
    simp only [Option.map_some', Option.some.injEq] at h
    subst h
    exact ⟨rfl, fun h0 => h0, fun hne => hne⟩

/-- Witness for claim C6 at a failing OS call (`sched_setaffinity`
returns -1): the shim reports exactly -1. -/
theorem set_status_verbatim_witness :
    (-1 : Int) = -1 ∧ ((-1 : Int) = 0 → (-1 : Int) = 0) ∧
      ((-1 : Int) ≠ 0 → (-1 : Int) ≠ 0) :=
  set_status_verbatim 1 1 (-1) (-1) (by decide)

/-- Claim C7: `set_proc_affinity` builds the native CPU-set only from
mask bits at indices below the processor count, starting from an empty
set: two masks agreeing on all bits below the bound produce the
identical CPU-set, hence the identical request to the OS. -/
theorem set_affinity_ignores_high_bits (m1 m2 nproc : Nat)
    (h : ∀ i, i < nproc → m1.testBit i = m2.testBit i) :
    build_cpu_set m1 nproc = build_cpu_set m2 nproc ∧
    ∀ osResult, set_proc_affinity m1 nproc osResult =
      set_proc_affinity m2 nproc osResult := by
  have hb := build_cpu_set_congr m1 m2 nproc h
  exact ⟨hb, fun osResult => by unfold set_proc_affinity; rw [hb]⟩

/-- Witness for claim C7: masks 0b0101 and 0b10101 agree below a
processor count of 4 and produce the identical CPU-set and request. -/
theorem set_affinity_ignores_high_bits_witness :
    build_cpu_set 5 4 = build_cpu_set 21 4 ∧
    ∀ osResult, set_proc_affinity 5 4 osResult =
      set_proc_affinity 21 4 osResult :=
  set_affinity_ignores_high_bits 5 21 4 (by decide)

/-- Claim C8: under the spec's assumption that the `sysconf` query
succeeds (it reports at least one online processor, within the range of
the C `long` type), `get_proc_count` returns that count unchanged, a
positive integer; the embedding takes the per-call `sysconf` response as
input, reflecting that the count is queried fresh on every call. -/
theorem get_proc_count_positive (r : Int) (hsuccess : 1 ≤ r)
    (hrange : r < 2 ^ 63) :
    1 ≤ get_proc_count r ∧ (get_proc_count r : Int) = r := by
  have h64 : ((2 : Int) ^ 64) = 18446744073709551616 := by norm_num
  have h63 : ((2 : Int) ^ 63) = 9223372036854775808 := by norm_num
  unfold get_proc_count
  rw [h64]
  rw [h63] at hrange
  omega

/-- Witness for claim C8 at a `sysconf` response of 4 processors. -/
theorem get_proc_count_positive_witness :
    1 ≤ get_proc_count 4 ∧ (get_proc_count 4 : Int) = 4 :=
  get_proc_count_positive 4 (by norm_num) (by norm_num)

/-- Claim C9: idempotence of `set_proc_affinity` at the OS-state level.
Whatever the outcome reported by `sched_setaffinity`, running the call a
second time with the same mask, processor count and OS outcome from the
state the first call produced leaves that state unchanged. -/
theorem set_affinity_idempotent (cpus nproc old st1 : Nat) (osResult : Int)
    (h : set_affinity_state cpus nproc osResult old = some st1) :
    set_affinity_state cpus nproc osResult st1 = some st1 := by
  unfold set_affinity_state at h ⊢
  cases hb : build_cpu_set cpus nproc with
  | none => rw [hb] at h; cases h
  | some t =>
    rw [hb] at h
    simp only [Option.map_some', Option.some.injEq] at h ⊢
    by_cases h0 : osResult = 0
    · rw [if_pos h0] at h ⊢
      exact h
    · rw [if_neg h0]

/-- Witness for claim C9: a successful set with mask 0b0101 and 4
processors moves the state to 0b0101, and a repeat leaves it there. -/
theorem set_affinity_idempotent_witness :
    set_affinity_state 5 4 0 5 = some 5 :=
  set_affinity_idempotent 5 4 0 5 0 (by decide)

/-- Claim C10: when `sysconf` fails and returns -1, the conversion of
that `long` to the `uint64_t` return type makes `get_proc_count` return
`2 ^ 64 - 1` instead of a valid count, and this value flows into the
bit-conversion loops of the other two operations as their bound — at
which `set_proc_affinity`'s CPU-set construction is undefined. -/
theorem get_proc_count_sysconf_failure :
    get_proc_count (-1) = 2 ^ 64 - 1 ∧
    (∀ cpus, build_cpu_set cpus (get_proc_count (-1)) = none) ∧
    (∀ cpuSet junk,
        get_proc_affinity (some cpuSet) junk (get_proc_count (-1)) =
          get_affinity_loop cpuSet junk (2 ^ 64 - 1)) := by
  have h : get_proc_count (-1) = 2 ^ 64 - 1 := by decide
  refine ⟨h, fun cpus => ?_, fun cpuSet junk => ?_⟩
  · rw [h]
    exact build_cpu_set_none_of_gt cpus (by norm_num)
  · rw [h]
    rfl

end Affinity
